import Mathlib

/-!
Verification of the triple-buffered data exchange primitive
(`src/triple-buffer/buffer.hh`).

The C++ class `triple_buffer<T>` holds three payload slots `buffer[3]`
and four pointer registers:

  * `readbuffer`    — initialised to `&buffer[0]`
  * `writebuffer`   — initialised to `&buffer[1]`
  * `available`     — initialised to `&buffer[2]` (atomic)
  * `next_read_buf` — initialised to `nullptr`  (atomic)

Every pointer stored in these registers is either `nullptr` or the
address of one of the three slots, so a pointer is embedded as
`Option (Fin 3)` with `none` standing for `nullptr` and `some i` for
`&buffer[i]`.  Slot contents are embedded as a function `Fin 3 → Nat`
(the payload type is opaque; `Nat` values let us track which snapshot
lives where).

The operations are embedded with their sequential semantics: each call
runs to completion with no interleaved call from the other thread, which
is exactly the regime the unit tests in `buffer.cc` exercise (they are
single-threaded) and the regime in which the slow-path wait of
`get_read_buffer` can only end by timeout.
-/

/-- State of a `triple_buffer<T>`: slot contents plus the four pointer
registers, with `none` playing the role of `nullptr`. -/
structure TBState where
  buf : Fin 3 → Nat
  readbuffer : Option (Fin 3)
  writebuffer : Option (Fin 3)
  available : Option (Fin 3)
  next_read_buf : Option (Fin 3)

/-- The freshly constructed buffer: `readbuffer = &buffer[0]`,
`writebuffer = &buffer[1]`, `available = &buffer[2]`,
`next_read_buf = nullptr`, all slots value-initialised. -/
def initBuffer : TBState :=
  { buf := fun _ => 0
    readbuffer := some 0
    writebuffer := some 1
    available := some 2
    next_read_buf := none }

/-- `T *get_write_buffer()` — returns `writebuffer`, touching nothing. -/
def get_write_buffer (s : TBState) : Option (Fin 3) × TBState :=
  (s.writebuffer, s)

/-- The producer mutating the payload in place through the pointer
returned by `get_write_buffer` (`*buffer.get_write_buffer() = v` in the
tests).  A null write pointer would be undefined behaviour in C++; it
never occurs in a reachable state, and the embedding makes the write a
no-op in that case. -/
def store_value (v : Nat) (s : TBState) : TBState :=
  match s.writebuffer with
  | some i => { s with buf := fun j => if j = i then v else s.buf j }
  | none => s

/-- `void set_write_complete()` — `writebuffer = available.exchange(writebuffer)`
then `next_read_buf.store(written)` (and a notify, which has no effect
on the embedded state). -/
def set_write_complete (s : TBState) : TBState :=
  { s with
    writebuffer := s.available
    available := s.writebuffer
    next_read_buf := s.writebuffer }

/-- `T *get_read_buffer(timeout)` under the sequential semantics.

Traces the C++ body with no concurrent `set_write_complete`:
`b = next_read_buf.exchange(nullptr)`; if `b == readbuffer` the `while`
loop is skipped and `readbuffer` is returned.  Otherwise the loop body
runs: `readbuffer = available.exchange(readbuffer)` (a swap of the two
registers); if now `b == readbuffer` that slot is returned.  Otherwise
`b` is cleared and the call waits on the condition variable; with no
concurrent producer the wait predicate (`next_read_buf.exchange(nullptr)`,
already drained to `nullptr` on entry) stays false, the timeout elapses
and the call returns `nullptr`. -/
def get_read_buffer (s : TBState) : Option (Fin 3) × TBState :=
  let b := s.next_read_buf
  let s0 : TBState := { s with next_read_buf := none }
  if b = s0.readbuffer then
    (s0.readbuffer, s0)
  else
    let s1 : TBState := { s0 with readbuffer := s0.available, available := s0.readbuffer }
    if b = s1.readbuffer then
      (s1.readbuffer, s1)
    else
      (none, s1)

/-- One API call, as a step relation on states. -/
inductive Step : TBState → TBState → Prop where
  | write {s : TBState} : Step s (get_write_buffer s).2
  | store {s : TBState} (v : Nat) : Step s (store_value v s)
  | complete {s : TBState} : Step s (set_write_complete s)
  | read {s : TBState} : Step s (get_read_buffer s).2

/-- States reachable from construction by any sequence of API calls. -/
inductive Reachable : TBState → Prop where
  | init : Reachable initBuffer
  | step {s t : TBState} : Reachable s → Step s t → Reachable t

/-- A complete publish cycle: the producer acquires the write buffer
(`get_write_buffer`, which does not change the state), fills it with the
snapshot value `v`, and calls `set_write_complete`. -/
def publish_cycle (v : Nat) (s : TBState) : TBState :=
  set_write_complete (store_value v s)

/-- Call sequences available to the two sides after a point in time, with
every snapshot value written by the producer different from `v1`.  Used
to state that the value `v1` can never again be delivered to the
consumer. -/
inductive LaterOps (v1 : Nat) : TBState → TBState → Prop where
  | refl (s : TBState) : LaterOps v1 s s
  | write {s t : TBState} : LaterOps v1 s t → LaterOps v1 s (get_write_buffer t).2
  | cycle {s t : TBState} (v : Nat) : v ≠ v1 → LaterOps v1 s t →
      LaterOps v1 s (publish_cycle v t)
  | read {s t : TBState} : LaterOps v1 s t → LaterOps v1 s (get_read_buffer t).2

/-- Call sequences containing only producer-side calls
(`get_write_buffer`, in-place mutation, `set_write_complete`), i.e. with
no intervening `get_read_buffer`. -/
inductive WriterOps : TBState → TBState → Prop where
  | refl (s : TBState) : WriterOps s s
  | write {s t : TBState} : WriterOps s t → WriterOps s (get_write_buffer t).2
  | store {s t : TBState} (v : Nat) : WriterOps s t → WriterOps s (store_value v t)
  | complete {s t : TBState} : WriterOps s t → WriterOps s (set_write_complete t)

/-- States reachable from construction without any `set_write_complete`
call. -/
inductive NoPublish : TBState → Prop where
  | init : NoPublish initBuffer
  | write {s : TBState} : NoPublish s → NoPublish (get_write_buffer s).2
  | store {s : TBState} (v : Nat) : NoPublish s → NoPublish (store_value v s)
  | read {s : TBState} : NoPublish s → NoPublish (get_read_buffer s).2

/-- Wrap-around of an unbounded integer into the signed two's-complement
64-bit range, the representation `libstdc++` and `libc++` use both for
`std::chrono::milliseconds::rep` and for the nanosecond-resolution
`std::chrono::steady_clock::rep`. -/
def wrap64 (x : Int) : Int := (x + 2 ^ 63) % 2 ^ 64 - 2 ^ 63

/-- The tick count of `std::chrono::milliseconds::max()` with the 64-bit
signed representation. -/
def millisecondsMax : Int := 2 ^ 63 - 1

/-- The deadline computation `std::chrono::steady_clock::now() + timeout`
performed on entry to `get_read_buffer` at the default argument
`timeout = std::chrono::milliseconds::max()`.  `now` is the clock's
current tick count in nanoseconds; the `common_type` of the clock's
duration and `milliseconds` is `nanoseconds`, so the timeout count is
scaled by `10^6` before the addition, and the sum wraps in the signed
64-bit representation. -/
def default_timeout_deadline (now : Int) : Int :=
  wrap64 (now + millisecondsMax * 1000000)

/-- Payload value `v1` survives, at most, in the producer's private write
slot: no other slot holds it. -/
def FreshAt (v1 : Nat) (s : TBState) : Prop :=
  ∀ i, s.buf i = v1 → s.writebuffer = some i

/-- Invariant I1: the three role registers are non-null and name three
pairwise distinct slots. -/
def RolesOK (s : TBState) : Prop :=
  ∃ r w a : Fin 3,
    s.readbuffer = some r ∧ s.writebuffer = some w ∧ s.available = some a ∧
    r ≠ w ∧ r ≠ a ∧ w ≠ a

/-- Auxiliary invariant: the pending marker is either clear or names the
slot currently held by `available`. -/
def NextOK (s : TBState) : Prop :=
  s.next_read_buf = none ∨ s.next_read_buf = s.available

theorem rolesOK_init : RolesOK initBuffer :=
  ⟨0, 1, 2, rfl, rfl, rfl, by decide, by decide, by decide⟩

theorem nextOK_init : NextOK initBuffer := Or.inl rfl

theorem store_value_regs (v : Nat) (s : TBState) :
    (store_value v s).readbuffer = s.readbuffer ∧
    (store_value v s).writebuffer = s.writebuffer ∧
    (store_value v s).available = s.available ∧
    (store_value v s).next_read_buf = s.next_read_buf := by
  cases h : s.writebuffer <;> simp [store_value, h]

theorem store_value_buf_some {s : TBState} {i : Fin 3} (h : s.writebuffer = some i)
    (v : Nat) :
    (store_value v s).buf = fun j => if j = i then v else s.buf j := by
  simp [store_value, h]

theorem store_value_buf_none {s : TBState} (h : s.writebuffer = none) (v : Nat) :
    (store_value v s).buf = s.buf := by
  simp [store_value, h]

theorem publish_cycle_regs (v : Nat) (s : TBState) :
    (publish_cycle v s).readbuffer = s.readbuffer ∧
    (publish_cycle v s).writebuffer = s.available ∧
    (publish_cycle v s).available = s.writebuffer ∧
    (publish_cycle v s).next_read_buf = s.writebuffer := by
  obtain ⟨h1, h2, h3, h4⟩ := store_value_regs v s
  exact ⟨h1, h3, h2, h2⟩

theorem rolesOK_store {s : TBState} (v : Nat) (h : RolesOK s) :
    RolesOK (store_value v s) := by
  obtain ⟨hr, hw, ha, -⟩ := store_value_regs v s
  obtain ⟨r, w, a, h1, h2, h3, hd⟩ := h
  exact ⟨r, w, a, hr ▸ h1, hw ▸ h2, ha ▸ h3, hd⟩

theorem nextOK_store {s : TBState} (v : Nat) (h : NextOK s) :
    NextOK (store_value v s) := by
  obtain ⟨-, -, ha, hn⟩ := store_value_regs v s
  unfold NextOK at h ⊢
  rw [ha, hn]
  exact h

/-- Case 1 of `get_read_buffer`: the pending marker equals `readbuffer`
on entry, so the `while` loop is skipped. -/
theorem get_read_buffer_skip {s : TBState} (h : s.next_read_buf = s.readbuffer) :
    get_read_buffer s = (s.readbuffer, { s with next_read_buf := none }) := by
  simp [get_read_buffer, h]

/-- Case 2 of `get_read_buffer`: the pending marker names the `available`
slot, so after one `available.exchange(readbuffer)` the fresh snapshot is
found and returned. -/
theorem get_read_buffer_hit {s : TBState} (h1 : s.next_read_buf ≠ s.readbuffer)
    (h2 : s.next_read_buf = s.available) :
    get_read_buffer s =
      (s.available,
       { s with readbuffer := s.available, available := s.readbuffer,
                next_read_buf := none }) := by
  have h3 : s.available ≠ s.readbuffer := fun h => h1 (h2.trans h)
  simp [get_read_buffer, h1, h2, h3]

/-- Case 3 of `get_read_buffer`: nothing fresh is found, the wait times
out and the call returns `nullptr` — with `readbuffer` and `available`
left swapped by the loop body. -/
theorem get_read_buffer_miss {s : TBState} (h1 : s.next_read_buf ≠ s.readbuffer)
    (h2 : s.next_read_buf ≠ s.available) :
    get_read_buffer s =
      (none,
       { s with readbuffer := s.available, available := s.readbuffer,
                next_read_buf := none }) := by
  simp [get_read_buffer, h1, h2]

theorem rolesOK_complete {s : TBState} (h : RolesOK s) :
    RolesOK (set_write_complete s) := by
  obtain ⟨r, w, a, hr, hw, ha, hrw, hra, hwa⟩ := h
  exact ⟨r, a, w, hr, by simp [set_write_complete, ha],
    by simp [set_write_complete, hw], hra, hrw, fun h => hwa h.symm⟩

theorem nextOK_complete (s : TBState) : NextOK (set_write_complete s) :=
  Or.inr (by simp [set_write_complete])

theorem rolesOK_read {s : TBState} (h : RolesOK s) :
    RolesOK (get_read_buffer s).2 := by
  obtain ⟨r, w, a, hr, hw, ha, hrw, hra, hwa⟩ := h
  by_cases h1 : s.next_read_buf = s.readbuffer
  · rw [get_read_buffer_skip h1]
    exact ⟨r, w, a, hr, hw, ha, hrw, hra, hwa⟩
  · by_cases h2 : s.next_read_buf = s.available
    · rw [get_read_buffer_hit h1 h2]
      exact ⟨a, w, r, ha, hw, hr,
        fun h => hwa h.symm, fun h => hra h.symm, fun h => hrw h.symm⟩
    · rw [get_read_buffer_miss h1 h2]
      exact ⟨a, w, r, ha, hw, hr,
        fun h => hwa h.symm, fun h => hra h.symm, fun h => hrw h.symm⟩

theorem read_clears_next (s : TBState) :
    (get_read_buffer s).2.next_read_buf = none := by
  by_cases h1 : s.next_read_buf = s.readbuffer
  · rw [get_read_buffer_skip h1]
  · by_cases h2 : s.next_read_buf = s.available
    · rw [get_read_buffer_hit h1 h2]
    · rw [get_read_buffer_miss h1 h2]

theorem nextOK_read (s : TBState) : NextOK (get_read_buffer s).2 :=
  Or.inl (read_clears_next s)

/-- Both invariants hold in every reachable state. -/
theorem inv_reachable {s : TBState} (h : Reachable s) : RolesOK s ∧ NextOK s := by
  induction h with
  | init => exact ⟨rolesOK_init, nextOK_init⟩
  | step _ hstep ih =>
    obtain ⟨hroles, hnext⟩ := ih
    cases hstep with
    | write => exact ⟨hroles, hnext⟩
    | store v => exact ⟨rolesOK_store v hroles, nextOK_store v hnext⟩
    | complete => exact ⟨rolesOK_complete hroles, nextOK_complete _⟩
    | read => exact ⟨rolesOK_read hroles, nextOK_read _⟩

theorem read_keeps_buf_write (s : TBState) :
    (get_read_buffer s).2.buf = s.buf ∧
    (get_read_buffer s).2.writebuffer = s.writebuffer := by
  by_cases h1 : s.next_read_buf = s.readbuffer
  · rw [get_read_buffer_skip h1]
    exact ⟨rfl, rfl⟩
  · by_cases h2 : s.next_read_buf = s.available
    · rw [get_read_buffer_hit h1 h2]
      exact ⟨rfl, rfl⟩
    · rw [get_read_buffer_miss h1 h2]
      exact ⟨rfl, rfl⟩

theorem read_none_of_next_none {s : TBState} (h : s.next_read_buf = none) :
    (get_read_buffer s).1 = none := by
  by_cases h1 : s.next_read_buf = s.readbuffer
  · rw [get_read_buffer_skip h1]
    exact h1.symm.trans h
  · by_cases h2 : s.next_read_buf = s.available
    · rw [get_read_buffer_hit h1 h2]
      exact h2.symm.trans h
    · rw [get_read_buffer_miss h1 h2]

theorem read_some_cases {s : TBState} (hR : RolesOK s) (hN : NextOK s) {p : Fin 3}
    (h : (get_read_buffer s).1 = some p) :
    s.next_read_buf = some p ∧ s.available = some p ∧ s.writebuffer ≠ some p ∧
    (get_read_buffer s).2.readbuffer = some p := by
  obtain ⟨r, w, a, hr, hw, ha, hrw, hra, hwa⟩ := hR
  cases hN with
  | inl hn =>
    rw [read_none_of_next_none hn] at h
    exact Option.noConfusion h
  | inr hn =>
    have h1 : s.next_read_buf ≠ s.readbuffer := by
      rw [hn, ha, hr]
      intro hc
      exact hra (Option.some.inj hc).symm
    rw [get_read_buffer_hit h1 hn] at h
    have hax : s.available = some p := h
    have hap : a = p := Option.some.inj (ha.symm.trans hax)
    refine ⟨hn.trans hax, hax, ?_, ?_⟩
    · rw [hw]
      intro hc
      exact hwa (hap ▸ Option.some.inj hc)
    · rw [get_read_buffer_hit h1 hn]
      exact hax

theorem freshAt_store_ne {v v1 : Nat} {s : TBState} (hv : v ≠ v1) (h : FreshAt v1 s) :
    ∀ i, (store_value v s).buf i ≠ v1 := by
  intro i hb
  cases hw : s.writebuffer with
  | none =>
    rw [store_value_buf_none hw] at hb
    have h2 := h i hb
    rw [hw] at h2
    exact Option.noConfusion h2
  | some wv =>
    simp only [store_value_buf_some hw] at hb
    split_ifs at hb with hiw
    · exact hv hb
    · have h2 := h i hb
      rw [hw] at h2
      exact hiw (Option.some.inj h2).symm

theorem laterOps_inv {v1 : Nat} {s t : TBState} (h : LaterOps v1 s t)
    (hR : RolesOK s) (hN : NextOK s) (hF : FreshAt v1 s) :
    RolesOK t ∧ NextOK t ∧ FreshAt v1 t := by
  induction h with
  | refl => exact ⟨hR, hN, hF⟩
  | write _ ih => exact ih
  | cycle v hv _ ih =>
    obtain ⟨hR2, hN2, hF2⟩ := ih
    refine ⟨rolesOK_complete (rolesOK_store v hR2), nextOK_complete _, ?_⟩
    intro i hb
    exact absurd hb (freshAt_store_ne hv hF2 i)
  | read _ ih =>
    obtain ⟨hR2, hN2, hF2⟩ := ih
    refine ⟨rolesOK_read hR2, nextOK_read _, ?_⟩
    obtain ⟨hbuf, hwr⟩ := read_keeps_buf_write _
    intro i hb
    rw [hbuf] at hb
    rw [hwr]
    exact hF2 i hb

theorem writerOps_inv {s t : TBState} (h : WriterOps s t) (hR : RolesOK s) :
    RolesOK t ∧ t.readbuffer = s.readbuffer := by
  induction h with
  | refl => exact ⟨hR, rfl⟩
  | write _ ih => exact ih
  | store v _ ih =>
    obtain ⟨hR2, hrd⟩ := ih
    obtain ⟨h1, -, -, -⟩ := store_value_regs v _
    exact ⟨rolesOK_store v hR2, h1.trans hrd⟩
  | complete _ ih =>
    obtain ⟨hR2, hrd⟩ := ih
    exact ⟨rolesOK_complete hR2, hrd⟩

theorem noPublish_next_none {s : TBState} (h : NoPublish s) :
    s.next_read_buf = none := by
  induction h with
  | init => rfl
  | write _ ih => exact ih
  | store v _ ih =>
    obtain ⟨-, -, -, h4⟩ := store_value_regs v _
    exact h4.trans ih
  | read _ _ => exact read_clears_next _

theorem fin3_cover (r w a i : Fin 3) :
    r ≠ w → r ≠ a → w ≠ a → i = r ∨ i = w ∨ i = a := by
  revert r w a i
  decide

/-- C1: in every reachable state of the triple buffer, the three role
registers `readbuffer`, `available` and `writebuffer` name exactly the
three allocated slots — all non-null, pairwise distinct, and jointly
covering every slot, so each slot has exactly one role. -/
theorem tb_C1_role_partition {s : TBState} (hs : Reachable s) :
    ∃ r w a : Fin 3,
      s.readbuffer = some r ∧ s.writebuffer = some w ∧ s.available = some a ∧
      r ≠ w ∧ r ≠ a ∧ w ≠ a ∧ ∀ i : Fin 3, i = r ∨ i = w ∨ i = a := by
  obtain ⟨⟨r, w, a, hr, hw, ha, hrw, hra, hwa⟩, -⟩ := inv_reachable hs
  exact ⟨r, w, a, hr, hw, ha, hrw, hra, hwa, fun i => fin3_cover r w a i hrw hra hwa⟩

theorem tb_C1_role_partition_witness :
    ∃ r w a : Fin 3,
      initBuffer.readbuffer = some r ∧ initBuffer.writebuffer = some w ∧
      initBuffer.available = some a ∧
      r ≠ w ∧ r ≠ a ∧ w ≠ a ∧ ∀ i : Fin 3, i = r ∨ i = w ∨ i = a :=
  tb_C1_role_partition Reachable.init

/-- C2: starting from a fresh buffer, one `get_write_buffer` (returning
slot `w`) followed by one `set_write_complete` makes the next
`get_read_buffer` return `w`, and a second `get_read_buffer` with no
intervening `set_write_complete` returns `nullptr`. -/
theorem tb_C2_write_once_read_once :
    (get_read_buffer (set_write_complete (get_write_buffer initBuffer).2)).1
        = (get_write_buffer initBuffer).1 ∧
    (get_read_buffer
        ((get_read_buffer (set_write_complete (get_write_buffer initBuffer).2)).2)).1
        = none := by
  decide

/-- C3: from any reachable state, two complete publish cycles writing
fresh values `v1` then `v2` with no intervening read make the next
`get_read_buffer` return the slot written in the second cycle, and the
first cycle's snapshot `v1` is never the content of a slot returned by
any later `get_read_buffer`, however the two sides go on interleaving
(with the producer writing values other than `v1`). -/
theorem tb_C3_latest_snapshot_only {s : TBState} (hs : Reachable s) (v1 v2 : Nat)
    (hfresh : ∀ i, s.buf i ≠ v1) (hv : v2 ≠ v1) :
    (get_read_buffer (publish_cycle v2 (publish_cycle v1 s))).1
        = (publish_cycle v1 s).writebuffer ∧
    ∀ t, LaterOps v1 (publish_cycle v2 (publish_cycle v1 s)) t →
      ∀ p, (get_read_buffer t).1 = some p → t.buf p ≠ v1 := by
  obtain ⟨⟨r, w, a, hr, hw, ha, hrw, hra, hwa⟩, hN⟩ := inv_reachable hs
  obtain ⟨p1r, p1w, p1a, p1n⟩ := publish_cycle_regs v1 s
  obtain ⟨p2r, p2w, p2a, p2n⟩ := publish_cycle_regs v2 (publish_cycle v1 s)
  have hs2r : (publish_cycle v2 (publish_cycle v1 s)).readbuffer = some r := by
    rw [p2r, p1r, hr]
  have hs2w : (publish_cycle v2 (publish_cycle v1 s)).writebuffer = some w := by
    rw [p2w, p1a, hw]
  have hs2a : (publish_cycle v2 (publish_cycle v1 s)).available = some a := by
    rw [p2a, p1w, ha]
  have hs2n : (publish_cycle v2 (publish_cycle v1 s)).next_read_buf = some a := by
    rw [p2n, p1w, ha]
  constructor
  · have h1 : (publish_cycle v2 (publish_cycle v1 s)).next_read_buf
        ≠ (publish_cycle v2 (publish_cycle v1 s)).readbuffer := by
      rw [hs2n, hs2r]
      intro hc
      exact hra (Option.some.inj hc).symm
    have h2 : (publish_cycle v2 (publish_cycle v1 s)).next_read_buf
        = (publish_cycle v2 (publish_cycle v1 s)).available := hs2n.trans hs2a.symm
    rw [get_read_buffer_hit h1 h2, p1w]
    exact hs2a.trans ha.symm
  · have hw1 : (publish_cycle v1 s).writebuffer = some a := p1w.trans ha
    have hF2 : FreshAt v1 (publish_cycle v2 (publish_cycle v1 s)) := by
      intro i hb
      have hb2 : (store_value v2 (publish_cycle v1 s)).buf i = v1 := hb
      simp only [store_value_buf_some hw1] at hb2
      split_ifs at hb2 with hia
      · exact absurd hb2 hv
      · have hb3 : (store_value v1 s).buf i = v1 := hb2
        simp only [store_value_buf_some hw] at hb3
        split_ifs at hb3 with hiw
        · rw [hs2w, hiw]
        · exact absurd hb3 (hfresh i)
    have hR2 : RolesOK (publish_cycle v2 (publish_cycle v1 s)) :=
      ⟨r, w, a, hs2r, hs2w, hs2a, hrw, hra, hwa⟩
    have hN2 : NextOK (publish_cycle v2 (publish_cycle v1 s)) :=
      Or.inr (hs2n.trans hs2a.symm)
    intro t ht p hp hb
    obtain ⟨hRt, hNt, hFt⟩ := laterOps_inv ht hR2 hN2 hF2
    obtain ⟨-, -, hwp, -⟩ := read_some_cases hRt hNt hp
    exact hwp (hFt p hb)

theorem tb_C3_latest_snapshot_only_witness :
    (∀ i, initBuffer.buf i ≠ 1) ∧
    ((get_read_buffer (publish_cycle 2 (publish_cycle 1 initBuffer))).1
        = (publish_cycle 1 initBuffer).writebuffer ∧
     ∀ t, LaterOps 1 (publish_cycle 2 (publish_cycle 1 initBuffer)) t →
       ∀ p, (get_read_buffer t).1 = some p → t.buf p ≠ 1) :=
  ⟨by decide, tb_C3_latest_snapshot_only Reachable.init 1 2 (by decide) (by decide)⟩

/-- C4: in every reachable state, a non-null pending marker
`next_read_buf` never names the slot held by the `writebuffer`
register. -/
theorem tb_C4_pending_never_write {s : TBState} (hs : Reachable s) (p : Fin 3)
    (hp : s.next_read_buf = some p) : s.writebuffer ≠ some p := by
  obtain ⟨⟨r, w, a, hr, hw, ha, hrw, hra, hwa⟩, hN⟩ := inv_reachable hs
  cases hN with
  | inl h =>
    rw [h] at hp
    exact Option.noConfusion hp
  | inr h =>
    have hap : a = p := Option.some.inj (ha.symm.trans (h.symm.trans hp))
    rw [hw]
    intro hc
    exact hwa ((Option.some.inj hc).trans hap.symm)

theorem tb_C4_pending_never_write_witness :
    (set_write_complete initBuffer).next_read_buf = some 1 ∧
    (set_write_complete initBuffer).writebuffer ≠ some 1 :=
  ⟨rfl, tb_C4_pending_never_write (Reachable.step Reachable.init Step.complete) 1 rfl⟩

/-- C5 counterexample: on the freshly constructed buffer, a
`get_read_buffer` call that returns `nullptr` does NOT leave all shared
state unchanged — the `available` register differs afterwards (the loop
body swapped it with `readbuffer` before the wait timed out). -/
theorem tb_C5_counterexample :
    (get_read_buffer initBuffer).1 = none ∧
    (get_read_buffer initBuffer).2.available ≠ initBuffer.available := by
  decide

/-- C5 (amended): in every reachable state, a `get_read_buffer` call
that returns `nullptr` leaves the `writebuffer` register, the pending
marker and all slot contents unchanged, and its only effect is to swap
the `readbuffer` and `available` registers; in particular the call is
safe to retry. -/
theorem tb_C5_timeout_effect {s : TBState} (hs : Reachable s)
    (h : (get_read_buffer s).1 = none) :
    (get_read_buffer s).2.writebuffer = s.writebuffer ∧
    (get_read_buffer s).2.next_read_buf = s.next_read_buf ∧
    (get_read_buffer s).2.readbuffer = s.available ∧
    (get_read_buffer s).2.available = s.readbuffer ∧
    (get_read_buffer s).2.buf = s.buf := by
  obtain ⟨⟨r, w, a, hr, hw, ha, hrw, hra, hwa⟩, hN⟩ := inv_reachable hs
  cases hN with
  | inr hn =>
    have h1 : s.next_read_buf ≠ s.readbuffer := by
      rw [hn, ha, hr]
      intro hc
      exact hra (Option.some.inj hc).symm
    rw [get_read_buffer_hit h1 hn] at h
    have hax : s.available = none := h
    rw [ha] at hax
    exact Option.noConfusion hax
  | inl hn =>
    have h1 : s.next_read_buf ≠ s.readbuffer := by
      rw [hn, hr]
      exact Option.noConfusion
    by_cases h2 : s.next_read_buf = s.available
    · rw [hn, ha] at h2
      exact Option.noConfusion h2
    · rw [get_read_buffer_miss h1 h2]
      refine ⟨rfl, ?_, rfl, rfl, rfl⟩
      rw [hn]

theorem tb_C5_timeout_effect_witness :
    (get_read_buffer initBuffer).1 = none ∧
    ((get_read_buffer initBuffer).2.writebuffer = initBuffer.writebuffer ∧
     (get_read_buffer initBuffer).2.next_read_buf = initBuffer.next_read_buf ∧
     (get_read_buffer initBuffer).2.readbuffer = initBuffer.available ∧
     (get_read_buffer initBuffer).2.available = initBuffer.readbuffer ∧
     (get_read_buffer initBuffer).2.buf = initBuffer.buf) :=
  ⟨by decide, tb_C5_timeout_effect Reachable.init (by decide)⟩

/-- C6: in every state reached without a single `set_write_complete`
call, `get_read_buffer` returns `nullptr`. -/
theorem tb_C6_no_publish_reads_null {s : TBState} (hs : NoPublish s) :
    (get_read_buffer s).1 = none :=
  read_none_of_next_none (noPublish_next_none hs)

theorem tb_C6_no_publish_reads_null_witness :
    (get_read_buffer initBuffer).1 = none :=
  tb_C6_no_publish_reads_null NoPublish.init

/-- C7: after a `get_read_buffer` call on a reachable state returns slot
`r`, every state reached by producer-only calls (any mix of
`get_write_buffer`, in-place mutation, `set_write_complete`) before the
next `get_read_buffer` has a write register different from `r`, so
`get_write_buffer` never hands out `r` and no `set_write_complete`
makes `writebuffer` equal `r`. -/
theorem tb_C7_reader_slot_protected {s t : TBState} {r : Fin 3} (hs : Reachable s)
    (hread : (get_read_buffer s).1 = some r)
    (hops : WriterOps (get_read_buffer s).2 t) :
    (get_write_buffer t).1 ≠ some r ∧ t.writebuffer ≠ some r := by
  obtain ⟨hR, hN⟩ := inv_reachable hs
  obtain ⟨-, -, -, hrd⟩ := read_some_cases hR hN hread
  obtain ⟨hRt, hrdt⟩ := writerOps_inv hops (rolesOK_read hR)
  obtain ⟨r2, w2, a2, hr2, hw2, ha2, hrw2, hra2, hwa2⟩ := hRt
  have hteq : t.readbuffer = some r := hrdt.trans hrd
  have hr2r : r2 = r := Option.some.inj (hr2.symm.trans hteq)
  have key : t.writebuffer ≠ some r := by
    rw [hw2]
    intro hc
    exact hrw2 (hr2r.trans (Option.some.inj hc).symm)
  exact ⟨key, key⟩

theorem tb_C7_reader_slot_protected_witness :
    (get_write_buffer (get_read_buffer (set_write_complete initBuffer)).2).1
        ≠ some 1 ∧
    (get_read_buffer (set_write_complete initBuffer)).2.writebuffer ≠ some 1 :=
  tb_C7_reader_slot_protected (Reachable.step Reachable.init Step.complete)
    (by decide) (WriterOps.refl _)

/-- C8: `get_write_buffer` changes no state of the buffer, and repeated
calls with no intervening `set_write_complete` return the same slot
pointer. -/
theorem tb_C8_write_buffer_pure (s : TBState) :
    (get_write_buffer s).2 = s ∧
    (get_write_buffer (get_write_buffer s).2).1 = (get_write_buffer s).1 :=
  ⟨rfl, rfl⟩

/-- C9: in every reachable state, `get_write_buffer` returns a non-null
pointer naming one of the three slots; it never returns the `nullptr`
sentinel that `get_read_buffer` uses for "no data". -/
theorem tb_C9_write_buffer_non_null {s : TBState} (hs : Reachable s) :
    (get_write_buffer s).1 ≠ none ∧ ∃ i : Fin 3, (get_write_buffer s).1 = some i := by
  obtain ⟨⟨r, w, a, hr, hw, ha, hrw, hra, hwa⟩, -⟩ := inv_reachable hs
  refine ⟨?_, w, hw⟩
  show s.writebuffer ≠ none
  rw [hw]
  exact Option.noConfusion

theorem tb_C9_write_buffer_non_null_witness :
    (get_write_buffer initBuffer).1 ≠ none ∧
    ∃ i : Fin 3, (get_write_buffer initBuffer).1 = some i :=
  tb_C9_write_buffer_non_null Reachable.init

/-- C10: at the default argument `std::chrono::milliseconds::max()`, the
deadline computation `steady_clock::now() + timeout` overflows the
signed 64-bit representation: for every in-range clock reading at least
one millisecond past the epoch, the wrapped deadline is exactly one
millisecond in the PAST, so the default call denotes no well-defined
infinite wait. -/
theorem tb_C10_default_timeout_overflows (now : Int)
    (h0 : 1000000 ≤ now) (h1 : now < 2 ^ 63) :
    default_timeout_deadline now = now - 1000000 ∧
    default_timeout_deadline now < now := by
  have key : default_timeout_deadline now = now - 1000000 := by
    unfold default_timeout_deadline wrap64 millisecondsMax
    have e : now + (2 ^ 63 - 1) * 1000000 + 2 ^ 63
        = (now - 1000000 + 2 ^ 63) + 2 ^ 64 * 500000 := by ring
    rw [e, Int.add_mul_emod_self_left,
      Int.emod_eq_of_lt (by omega) (by omega)]
    ring
  exact ⟨key, by omega⟩

theorem tb_C10_default_timeout_overflows_witness :
    default_timeout_deadline 1000000 = 1000000 - 1000000 ∧
    default_timeout_deadline 1000000 < 1000000 :=
  tb_C10_default_timeout_overflows 1000000 (by norm_num) (by norm_num)
